import Mathlib

/-!
Verification of the Tongyi chat provider (`contrib/tongyi/chat.go`):
a protocol adapter between the vendor-neutral blades message model and the
OpenAI-compatible chat-completion wire format, with an iterative tool-calling
loop in both non-streaming (`Generate`/`New`) and streaming
(`NewStream`/`NewStreaming`) form.

The blades core package (message model, options, stream pipe) lives outside
the adapter sources; its data types and the pipe semantics are modelled from
the specification and marked as such.  Everything else is a direct shallow
embedding of `chat.go`: Go slices become lists, pointer mutation of the
running request becomes explicit state passing, `(T, error)` results become
`Except`/pairs with an error option, and byte slices become lists of naturals
below 256.
-/

namespace Tongyi

/-- Error values of the adapter.  The named values mirror the `Err*`
variables declared at the top of `chat.go`; `emptyMessages` is the inline
`errors.New("at least one message is required")`; `handlerFailure` stands for
an arbitrary error produced by a tool handler; `decodeFailure` for a base64
decoding error. -/
inductive Err where
  | emptyResponse
  | toolNotFound
  | tooManyIterations
  | invalidAPIKey
  | invalidModel
  | emptyMessages
  | decodeFailure
  | handlerFailure (message : String)
  | transport (message : String)
deriving DecidableEq

/-- Equality of `Except` results is decidable when both component types are;
used to evaluate the embedding on concrete inputs. -/
instance {ε α : Type} [DecidableEq ε] [DecidableEq α] : DecidableEq (Except ε α) := fun a b =>
  match a, b with
  | Except.ok x, Except.ok y =>
    if h : x = y then isTrue (by rw [h]) else isFalse (by intro hc; cases hc; exact h rfl)
  | Except.error x, Except.error y =>
    if h : x = y then isTrue (by rw [h]) else isFalse (by intro hc; cases hc; exact h rfl)
  | Except.ok _, Except.error _ => isFalse (by intro hc; cases hc)
  | Except.error _, Except.ok _ => isFalse (by intro hc; cases hc)

/-- Modelled from the spec: blades' MIME type (outside the adapter sources) is
a string such as "audio/mpeg"; parts classify by the "type" half before the
slash, and the audio format is derived from the MIME type (the half after the
slash). -/
structure Mime where
  raw : String
deriving DecidableEq

/-- Characters before the first slash. -/
def charsBeforeSlash : List Char → List Char
  | [] => []
  | c :: rest => if c == '/' then [] else c :: charsBeforeSlash rest

/-- Characters after the first slash. -/
def charsAfterSlash : List Char → List Char
  | [] => []
  | c :: rest => if c == '/' then rest else charsAfterSlash rest

/-- MIME major type: the part of the raw MIME string before the slash. -/
def Mime.type (m : Mime) : String :=
  String.mk (charsBeforeSlash m.raw.toList)

/-- MIME-derived audio format: the part of the raw MIME string after the slash. -/
def Mime.format (m : Mime) : String :=
  String.mk (charsAfterSlash m.raw.toList)

/-- Modelled from the spec: blades content parts (outside the adapter
sources) — a closed variant over text, file reference and inline data. -/
inductive Part where
  | text (text : String)
  | file (name : String) (uri : String) (mimeType : Mime)
  | data (name : String) (bytes : List Nat) (mimeType : Mime)
deriving DecidableEq

/-- Modelled from the spec: blades message roles. -/
inductive Role where
  | system
  | user
  | assistant
  | tool
deriving DecidableEq, BEq

/-- Modelled from the spec: blades message lifecycle status. -/
inductive Status where
  | completed
  | incomplete
deriving DecidableEq, BEq

/-- Modelled from the spec: a blades ToolCall record (id, name, raw arguments,
result populated after invocation). -/
structure ToolCall where
  id : String := ""
  name : String := ""
  arguments : String := ""
  result : String := ""
deriving DecidableEq

/-- Modelled from the spec: a blades Message.  The Go metadata map receives at
most the two keys `refusal` and `finish_reason`, each written once, so it is
embedded as an association list in insertion order. -/
structure Message where
  role : Role
  status : Status := Status.completed
  parts : List Part := []
  metadata : List (String × String) := []
  toolCalls : List ToolCall := []
deriving DecidableEq

/-- Modelled from the spec: a blades ToolDefinition.  The Go handler takes a
context and the raw argument string and returns `(string, error)`; the context
carries no observable information for this adapter, so the handler is embedded
as a function from the argument string to a result string paired with an
optional error.  The JSON input schema is embedded as an already-serialized
string. -/
structure Tool where
  name : String
  description : String := ""
  inputSchema : Option String := none
  handle : String → String × Option Err

/-- Modelled from the spec: a blades ModelRequest. -/
structure ModelRequest where
  model : String
  messages : List Message := []
  tools : List Tool := []

/-- Modelled from the spec: blades ModelOptions.  Temperature and top-p are Go
float64 values whose only observable use in this adapter is the `> 0` test, so
they are embedded as integers; `maxIterations` is a Go int. -/
structure ModelOptions where
  temperature : Int := 0
  topP : Int := 0
  maxOutputTokens : Int := 0
  reasoningEffort : String := ""
  maxIterations : Int := 0

/-- Modelled from the spec: a blades ModelResponse — the ordered messages of
one request/response cycle or one streamed chunk. -/
structure ModelResponse where
  messages : List Message := []
deriving DecidableEq

/-- Wire-format function payload of a tool call (`call.Function`). -/
structure WireFunction where
  name : String := ""
  arguments : String := ""
deriving DecidableEq

/-- Wire-format tool call (`openai.ChatCompletionMessageToolCall`). -/
structure WireToolCall where
  id : String := ""
  function : WireFunction := {}
deriving DecidableEq

/-- Wire-format assistant message of a completed choice
(`choice.Message`): textual content, optional inline audio payload
(`choice.Message.Audio.Data`), optional refusal, and tool calls. -/
structure ChoiceMessage where
  content : String := ""
  audioData : String := ""
  refusal : String := ""
  toolCalls : List WireToolCall := []
deriving DecidableEq

/-- Wire-format completion choice (`openai.ChatCompletionChoice`). -/
structure Choice where
  message : ChoiceMessage := {}
  finishReason : String := ""
deriving DecidableEq

/-- Wire-format content part of a user message
(`openai.ChatCompletionContentPartUnionParam`). -/
inductive ContentPart where
  | text (text : String)
  | imageURL (url : String)
  | inputAudio (data : String) (format : String)
  | file (fileData : String) (filename : String)
deriving DecidableEq

/-- Wire-format request message
(`openai.ChatCompletionMessageParamUnion`).  `assistantOfChoice` is the
assistant tool-call announcement appended by the response assembler
(`choice.Message.ToParam()`), and `toolResult` is `openai.ToolMessage`. -/
inductive WireMessage where
  | user (parts : List ContentPart)
  | assistant (text : String)
  | system (texts : List String)
  | assistantOfChoice (message : ChoiceMessage)
  | toolResult (content : String) (toolCallId : String)
deriving DecidableEq

/-- Wire-format tool declaration (`openai.ChatCompletionToolUnionParam`
holding a function definition). -/
structure WireTool where
  name : String := ""
  description : String := ""
  parameters : Option String := none
deriving DecidableEq

/-- Wire-format request (`openai.ChatCompletionNewParams`).  Option fields are
absent unless the corresponding model option is active. -/
structure Params where
  model : String := ""
  messages : List WireMessage := []
  tools : List WireTool := []
  topP : Option Int := none
  temperature : Option Int := none
  maxCompletionTokens : Option Int := none
  reasoningEffort : String := ""
deriving DecidableEq

/-- Standard base64 alphabet used by Go's `base64.StdEncoding`. -/
def b64Alphabet : List Char :=
  "ABCDEFGHIJKLMNOPQRSTUVWXYZabcdefghijklmnopqrstuvwxyz0123456789+/".toList

/-- Character of a six-bit group. -/
def sextetChar (n : Nat) : Char :=
  b64Alphabet.getD n 'A'

/-- Index of a character in a character list, or `none`. -/
def charIndex : List Char → Char → Nat → Option Nat
  | [], _, _ => none
  | a :: rest, c, i => if a == c then some i else charIndex rest c (i + 1)

/-- Six-bit value of a base64 alphabet character, or `none`. -/
def sextetVal (c : Char) : Option Nat :=
  charIndex b64Alphabet c 0

/-- Base64 encoding of a byte list (`base64.StdEncoding.EncodeToString`),
with `=` padding.  Bytes are naturals below 256. -/
def base64Encode : List Nat → String
  | b1 :: b2 :: b3 :: rest =>
      String.mk [sextetChar (b1 / 4), sextetChar (b1 % 4 * 16 + b2 / 16),
        sextetChar (b2 % 16 * 4 + b3 / 64), sextetChar (b3 % 64)] ++ base64Encode rest
  | [b1, b2] =>
      String.mk [sextetChar (b1 / 4), sextetChar (b1 % 4 * 16 + b2 / 16),
        sextetChar (b2 % 16 * 4), '=']
  | [b1] =>
      String.mk [sextetChar (b1 / 4), sextetChar (b1 % 4 * 16), '=', '=']
  | [] => ""

/-- Base64 decoding of a character list in groups of four, rejecting
characters outside the alphabet and truncated groups
(`base64.StdEncoding.DecodeString`; canonicality of the final padding bits is
not modelled, which no claim exercises). -/
def b64DecodeChars : List Char → Option (List Nat)
  | [] => some []
  | c1 :: c2 :: c3 :: c4 :: rest =>
    match sextetVal c1, sextetVal c2 with
    | some v1, some v2 =>
      if c3 == '=' && c4 == '=' && rest.isEmpty then
        some [v1 * 4 + v2 / 16]
      else
        match sextetVal c3 with
        | some v3 =>
          if c4 == '=' && rest.isEmpty then
            some [v1 * 4 + v2 / 16, v2 % 16 * 16 + v3 / 4]
          else
            match sextetVal c4 with
            | some v4 =>
              match b64DecodeChars rest with
              | some bs => some ((v1 * 4 + v2 / 16) :: (v2 % 16 * 16 + v3 / 4) ::
                  (v3 % 4 * 64 + v4) :: bs)
              | none => none
            | none => none
        | none => none
    | _, _ => none
  | _ => none

/-- Base64 decoding of a string. -/
def base64Decode (s : String) : Option (List Nat) :=
  b64DecodeChars s.toList

/-- Tongyi Qwen model name constants (`chat.go`). -/
def QwenTurbo : String := "qwen-turbo"

/-- Tongyi Qwen Plus model name constant. -/
def QwenPlus : String := "qwen-plus"

/-- Tongyi Qwen Max model name constant. -/
def QwenMax : String := "qwen-max"

/-- Tongyi Qwen Long model name constant. -/
def QwenLong : String := "qwen-long"

/-- Tongyi Qwen vision-language model name constant. -/
def QwenVL : String := "qwen-vl-plus"

/-- Tongyi Qwen audio model name constant. -/
def QwenAudio : String := "qwen-audio-turbo"

/-- `isValidModel`: membership in the fixed set of six supported model names
(the Go code looks the name up in a literal map). -/
def isValidModel (model : String) : Bool :=
  model == QwenTurbo || model == QwenPlus || model == QwenMax ||
    model == QwenLong || model == QwenVL || model == QwenAudio

/-- `toTools`: map each tool definition to a wire tool declaration, copying
name, non-empty description, and the serialized input schema.  The Go JSON
marshal/unmarshal round-trip of the schema cannot fail on the already
serialized representation used here, so the embedding is total. -/
def toTools (tools : List Tool) : List WireTool :=
  tools.map fun tool =>
    { name := tool.name
      description := tool.description
      parameters := tool.inputSchema }

/-- `toTextParts`: text-only parts of a message (system/assistant paths);
non-text parts are skipped. -/
def toTextParts (message : Message) : List String :=
  message.parts.foldr
    (fun part acc =>
      match part with
      | Part.text t => t :: acc
      | _ => acc) []

/-- Wire content parts produced for one part of a user message
(the body of the loop of `toContentParts`). -/
def partToContentParts : Part → List ContentPart
  | Part.text t => [ContentPart.text t]
  | Part.file _ uri mimeType =>
    if mimeType.type == "image" then
      [ContentPart.imageURL uri]
    else if mimeType.type == "audio" then
      [ContentPart.inputAudio uri mimeType.format]
    else
      []
  | Part.data name bytes mimeType =>
    if mimeType.type == "image" then
      [ContentPart.imageURL ("data:" ++ mimeType.raw ++ ";base64," ++ base64Encode bytes)]
    else if mimeType.type == "audio" then
      [ContentPart.inputAudio ("data:;base64," ++ base64Encode bytes) mimeType.format]
    else
      [ContentPart.file (base64Encode bytes) name]

/-- `toContentParts`: multi-modal wire content parts of a user message.  A
file part with an unrecognized MIME type is logged and dropped (non-fatal). -/
def toContentParts (message : Message) : List ContentPart :=
  (message.parts.map partToContentParts).flatten

/-- Wire messages produced for one request message (the body of the role
dispatch loop of `toChatCompletionParams`): user messages carry content
parts, assistant messages only their first text part (nothing when there is
none), system messages all text parts, and tool-role messages are never
translated directly. -/
def translateMessage (msg : Message) : List WireMessage :=
  match msg.role with
  | Role.user => [WireMessage.user (toContentParts msg)]
  | Role.assistant =>
    match toTextParts msg with
    | [] => []
    | t :: _ => [WireMessage.assistant t]
  | Role.system => [WireMessage.system (toTextParts msg)]
  | Role.tool => []

/-- `toChatCompletionParams`: validate the model name and message
non-emptiness, translate tools, copy active options, and translate every
message by role. -/
def toChatCompletionParams (req : ModelRequest) (opt : ModelOptions) :
    Except Err Params :=
  if !isValidModel req.model then
    Except.error Err.invalidModel
  else if req.messages.isEmpty then
    Except.error Err.emptyMessages
  else
    let base : Params :=
      { model := req.model
        tools := toTools req.tools
        topP := if opt.topP > 0 then some opt.topP else none
        temperature := if opt.temperature > 0 then some opt.temperature else none
        maxCompletionTokens :=
          if opt.maxOutputTokens > 0 then some opt.maxOutputTokens else none
        reasoningEffort :=
          if opt.reasoningEffort ≠ "" then opt.reasoningEffort else "" }
    Except.ok { base with
      messages := (req.messages.map translateMessage).flatten }

/-- `toolCall`: invoke the first tool whose name matches exactly, returning
the handler's `(result, error)` pair unchanged; with no match, return the
empty string and `ErrToolNotFound`. -/
def toolCall (tools : List Tool) (name : String) (arguments : String) :
    String × Option Err :=
  match tools with
  | [] => ("", some Err.toolNotFound)
  | tool :: rest =>
    if tool.name == name then tool.handle arguments
    else toolCall rest name arguments

/-- Decoded audio parts of a choice message: nothing when the audio payload is
absent, one data part with the decoded bytes otherwise; a decode failure is
fatal (the `base64.StdEncoding.DecodeString` error return in
`choiceToResponse`). -/
def audioParts (audioData : String) : Except Err (List Part) :=
  if audioData == "" then
    Except.ok []
  else
    match base64Decode audioData with
    | none => Except.error Err.decodeFailure
    | some bytes => Except.ok [Part.data "" bytes { raw := "" }]

/-- Tool-invocation loop of `choiceToResponse` for the tool calls of one
choice: each call is dispatched through `toolCall`; on success the output
message switches to the tool role, records the ToolCall with its result, and a
tool-result entry is appended to the running wire request; the first failure
aborts with that error, keeping the request entries appended so far (the Go
code mutates `params` through a pointer and returns the error without undoing
those appends). -/
def processToolCalls (params : Params) (tools : List Tool) (msg : Message) :
    List WireToolCall → Params × Except Err Message
  | [] => (params, Except.ok msg)
  | call :: rest =>
    match toolCall tools call.function.name call.function.arguments with
    | (_, some e) => (params, Except.error e)
    | (result, none) =>
      let msg' := { msg with
        role := Role.tool
        toolCalls := msg.toolCalls ++
          [{ id := call.id, name := call.function.name,
             arguments := call.function.arguments, result := result }] }
      processToolCalls
        { params with messages := params.messages ++ [WireMessage.toolResult result call.id] }
        tools msg' rest

/-- Assembly of one wire choice (the body of the loop of
`choiceToResponse`): non-empty content becomes a text part, a non-empty audio
payload is base64-decoded into a data part (decode failure is fatal before
anything is appended to the request), refusal and finish reason become
metadata, and when the choice carries tool calls the assistant's own
announcement is appended to the running request before the tool loop runs. -/
def assembleChoice (params : Params) (tools : List Tool) (choice : Choice) :
    Params × Except Err Message :=
  match audioParts choice.message.audioData with
  | Except.error e => (params, Except.error e)
  | Except.ok aparts =>
    let msg : Message :=
      { role := Role.assistant
        status := Status.completed
        parts := (if choice.message.content ≠ "" then [Part.text choice.message.content] else [])
          ++ aparts
        metadata :=
          (if choice.message.refusal ≠ "" then [("refusal", choice.message.refusal)] else [])
          ++ (if choice.finishReason ≠ "" then [("finish_reason", choice.finishReason)] else [])
        toolCalls := [] }
    let params1 :=
      if choice.message.toolCalls.isEmpty then params
      else { params with
        messages := params.messages ++ [WireMessage.assistantOfChoice choice.message] }
    processToolCalls params1 tools msg choice.message.toolCalls

/-- `choiceToResponse`: assemble every wire choice into one output message,
threading the running wire request through each step; the first failing choice
aborts the whole response with that error (the request keeps the entries
appended before the failure). -/
def choiceToResponse (params : Params) (tools : List Tool) :
    List Choice → Params × Except Err ModelResponse
  | [] => (params, Except.ok { messages := [] })
  | choice :: rest =>
    match assembleChoice params tools choice with
    | (params', Except.error e) => (params', Except.error e)
    | (params', Except.ok msg) =>
      match choiceToResponse params' tools rest with
      | (params'', Except.error e) => (params'', Except.error e)
      | (params'', Except.ok res) => (params'', Except.ok { messages := msg :: res.messages })

/-- Wire-format streamed delta (`choice.Delta`): partial content, refusal and
tool-call fragments of one chunk choice. -/
structure Delta where
  content : String := ""
  refusal : String := ""
  toolCalls : List WireToolCall := []
deriving DecidableEq

/-- Wire-format streaming chunk choice (`openai.ChatCompletionChunkChoice`). -/
structure ChunkChoice where
  delta : Delta := {}
  finishReason : String := ""
deriving DecidableEq

/-- Wire-format streaming chunk (`openai.ChatCompletionChunk`): the choices of
one incremental unit of a streamed response. -/
structure Chunk where
  choices : List ChunkChoice := []
deriving DecidableEq

/-- Message of one streaming chunk choice (the body of the loop of
`chunkChoiceToResponse`): status incomplete, delta content and refusal and the
finish reason as in the non-streaming path, and every delta tool call recorded
(with no result) while switching the role to tool. -/
def chunkChoiceToMessage (choice : ChunkChoice) : Message :=
  { role := if choice.delta.toolCalls.isEmpty then Role.assistant else Role.tool
    status := Status.incomplete
    parts := if choice.delta.content ≠ "" then [Part.text choice.delta.content] else []
    metadata :=
      (if choice.delta.refusal ≠ "" then [("refusal", choice.delta.refusal)] else [])
      ++ (if choice.finishReason ≠ "" then [("finish_reason", choice.finishReason)] else [])
    toolCalls := choice.delta.toolCalls.map fun call =>
      { id := call.id, name := call.function.name, arguments := call.function.arguments,
        result := "" } }

/-- `chunkChoiceToResponse`: one incomplete message per chunk choice.  The Go
function also receives the tool list and an error return, but never uses the
tools nor produces a non-nil error. -/
def chunkChoiceToResponse (_tools : List Tool) (choices : List ChunkChoice) : ModelResponse :=
  { messages := choices.map chunkChoiceToMessage }

/-- Transition test of the iteration controller (the message loop of `New`):
some output message has the tool role with at least one ToolCall. -/
def pendingToolWork (res : ModelResponse) : Bool :=
  res.messages.any fun m => m.role == Role.tool && !m.toolCalls.isEmpty

/-- One request/response cycle outcome delivered by the wire client for the
non-streaming path: either a transport error or the list of choices of the
completion.  A run of the iteration controller consumes such outcomes in
order. -/
abbrev WireOutcome := Except Err (List Choice)

/-- `New`, the non-streaming iteration controller, over an explicit script of
wire outcomes.  The result carries the Go return value, the number of
request/response cycles performed (wire-client calls), and the final running
wire request.  The iteration budget is the Go int `opts.MaxIterations`; it is
only ever tested against `< 1` and decremented, so it enters here clamped to a
natural number (`Int.toNat`), which preserves the guard `MaxIterations < 1 ↔
fuel = 0` and the decrement exactly. -/
def NewAux (params : Params) (tools : List Tool) (fuel : Nat)
    (script : List WireOutcome) : Except Err ModelResponse × Nat × Params :=
  match fuel with
  | 0 => (Except.error Err.tooManyIterations, 0, params)
  | fuel' + 1 =>
    match script with
    | [] => (Except.error (Err.transport "script exhausted"), 1, params)
    | outcome :: rest =>
      match outcome with
      | Except.error e => (Except.error e, 1, params)
      | Except.ok choices =>
        match choiceToResponse params tools choices with
        | (params', Except.error e) => (Except.error e, 1, params')
        | (params', Except.ok res) =>
          if pendingToolWork res then
            let r := NewAux params' tools fuel' rest
            (r.1, r.2.1 + 1, r.2.2)
          else
            (Except.ok res, 1, params')

/-- `New` at the blades options level. -/
def New (params : Params) (tools : List Tool) (opts : ModelOptions)
    (script : List WireOutcome) : Except Err ModelResponse × Nat × Params :=
  NewAux params tools opts.maxIterations.toNat script

/-- `Generate`: translate the request and run the non-streaming controller;
a translation failure is returned before any wire-client call.  The second
component counts the wire-client calls performed. -/
def Generate (req : ModelRequest) (opt : ModelOptions)
    (script : List WireOutcome) : Except Err ModelResponse × Nat :=
  match toChatCompletionParams req opt with
  | Except.error e => (Except.error e, 0)
  | Except.ok params =>
    let r := New params req.tools opt script
    (r.1, r.2.1)

/-- One wire-format stream as delivered by the wire client for one
`client.Chat.Completions.NewStreaming` call: the chunks yielded by successive
`stream.Next()`/`stream.Current()` iterations, whether the iteration stopped
because of a transport error (in which case `stream.Err()` would be non-nil —
the adapter never consults it), and the completion accumulated by the external
`openai.ChatCompletionAccumulator` once the iteration stops.  The accumulator
belongs to the wire client collaborator, so its output is part of the session
data rather than recomputed here. -/
structure StreamSession where
  chunks : List Chunk := []
  transportFailed : Bool := false
  accumulated : List Choice := []

/-- Output of a streaming run, modelled from the spec's pipe semantics: the
items sent to the consumer-facing sequence in order, the terminal error of the
background task (`none` for normal completion), the final running wire
request, and the stream sessions not yet consumed (each recursive
`NewStreaming` call opens the next session). -/
abbrev StreamResult := List ModelResponse × Option Err × Params × List StreamSession

mutual

/-- Background task of `NewStreaming` over an explicit list of stream
sessions, with the entry guard.  With no budget left it fails with
`ErrTooManyIterations` (guard `opts.MaxIterations < 1`, i.e. clamped fuel 0).
Otherwise it opens the next session, forwards one incomplete partial response
per chunk in arrival order, assembles the accumulated completion exactly as in
the non-streaming path (appending tool turns to the running request), forwards
that consolidated response, and relays any tool-triggered nested streams.  A
failure of the assembly step terminates the output with that error; the
chunk-iteration loop itself never checks `stream.Err()`, so a transport
failure of the wire stream merely ends the loop. -/
def runStreaming (params : Params) (tools : List Tool) (fuel : Nat)
    (sessions : List StreamSession) : StreamResult :=
  if fuel = 0 then
    ([], some Err.tooManyIterations, params, sessions)
  else
    let s := sessions.headD {}
    let rest := sessions.tail
    let chunkItems := s.chunks.map fun c => chunkChoiceToResponse tools c.choices
    match choiceToResponse params tools s.accumulated with
    | (params1, Except.error e) => (chunkItems, some e, params1, rest)
    | (params1, Except.ok lastResponse) =>
      let r := relayToolStreams params1 tools fuel rest lastResponse.messages
      (chunkItems ++ lastResponse :: r.1, r.2.1, r.2.2.1, r.2.2.2)

/-- Relay loop of the background task over the messages of the consolidated
response: every tool-role message with outstanding tool calls decrements the
iteration budget and opens a nested stream for the extended request, relaying
its entire output in order before continuing; a nested failure terminates the
parent with that error.  When the decremented budget is already exhausted the
nested entry guard rejects at once (`runStreaming` with fuel 0 returns the
`ErrTooManyIterations` failure without touching any state; that case is
written out here so the recursion is visibly well-founded). -/
def relayToolStreams (params : Params) (tools : List Tool) (fuel : Nat)
    (sessions : List StreamSession) (msgs : List Message) : StreamResult :=
  match msgs with
  | [] => ([], none, params, sessions)
  | m :: ms =>
    if m.role == Role.tool && !m.toolCalls.isEmpty then
      if fuel ≤ 1 then
        ([], some Err.tooManyIterations, params, sessions)
      else
        let r := runStreaming params tools (fuel - 1) sessions
        match r.2.1 with
        | some e => (r.1, some e, r.2.2.1, r.2.2.2)
        | none =>
          let r2 := relayToolStreams r.2.2.1 tools (fuel - 1) r.2.2.2 ms
          (r.1 ++ r2.1, r2.2.1, r2.2.2.1, r2.2.2.2)
    else
      relayToolStreams params tools fuel sessions ms

end

/-- `NewStreaming` at the blades options level: the consumer-visible output
sequence (items then terminal error) of the stream pipe. -/
def NewStreaming (params : Params) (tools : List Tool) (opts : ModelOptions)
    (sessions : List StreamSession) : StreamResult :=
  runStreaming params tools opts.maxIterations.toNat sessions

/-- `NewStream`: reject a non-positive iteration budget before anything else,
then translate the request and start the stream pipeline; both failures happen
before any wire-client call. -/
def NewStream (req : ModelRequest) (opt : ModelOptions)
    (sessions : List StreamSession) : Except Err (List ModelResponse × Option Err) :=
  if opt.maxIterations ≤ 0 then
    Except.error Err.tooManyIterations
  else
    match toChatCompletionParams req opt with
    | Except.error e => Except.error e
    | Except.ok params =>
      let r := NewStreaming params req.tools opt sessions
      Except.ok (r.1, r.2.1)



theorem processToolCalls_messages_grow (tools : List Tool) :
    ∀ (calls : List WireToolCall) (params : Params) (msg : Message),
      params.messages <+: (processToolCalls params tools msg calls).1.messages := by
  intro calls
  induction calls with
  | nil => intro params msg; simp [processToolCalls]
  | cons call rest ih =>
    intro params msg
    simp only [processToolCalls]
    rcases h : toolCall tools call.function.name call.function.arguments with ⟨result, err⟩
    cases err with
    | some e => simp
    | none =>
      refine List.IsPrefix.trans ?_ (ih _ _)
      simp

theorem assembleChoice_messages_grow (params : Params) (tools : List Tool) (choice : Choice) :
    params.messages <+: (assembleChoice params tools choice).1.messages := by
  simp only [assembleChoice]
  cases audioParts choice.message.audioData with
  | error e => simp
  | ok aparts =>
    by_cases h : choice.message.toolCalls.isEmpty
    · simpa [h] using processToolCalls_messages_grow tools _ _ _
    · refine List.IsPrefix.trans ?_ (processToolCalls_messages_grow tools _ _ _)
      simp [h]

theorem choiceToResponse_messages_grow (tools : List Tool) :
    ∀ (choices : List Choice) (params : Params),
      params.messages <+: (choiceToResponse params tools choices).1.messages := by
  intro choices
  induction choices with
  | nil => intro params; simp [choiceToResponse]
  | cons choice rest ih =>
    intro params
    simp only [choiceToResponse]
    rcases h : assembleChoice params tools choice with ⟨params', r⟩
    have h1 : params.messages <+: params'.messages := by
      have := assembleChoice_messages_grow params tools choice
      rw [h] at this; exact this
    cases r with
    | error e => simpa using h1
    | ok msg =>
      rcases h2 : choiceToResponse params' tools rest with ⟨params'', r2⟩
      have h3 : params'.messages <+: params''.messages := by
        have := ih params'
        rw [h2] at this; exact this
      cases r2 with
      | error e => simpa [h2] using h1.trans h3
      | ok res => simpa [h2] using h1.trans h3

theorem NewAux_messages_grow (tools : List Tool) :
    ∀ (fuel : Nat) (script : List WireOutcome) (params : Params),
      params.messages <+: (NewAux params tools fuel script).2.2.messages := by
  intro fuel
  induction fuel with
  | zero => intro script params; simp [NewAux]
  | succ fuel' ih =>
    intro script params
    cases script with
    | nil => simp [NewAux]
    | cons outcome rest =>
      cases outcome with
      | error e => simp [NewAux]
      | ok choices =>
        simp only [NewAux]
        rcases h : choiceToResponse params tools choices with ⟨params', r⟩
        have h1 : params.messages <+: params'.messages := by
          have := choiceToResponse_messages_grow tools choices params
          rw [h] at this; exact this
        cases r with
        | error e => simpa using h1
        | ok res =>
          by_cases hp : pendingToolWork res
          · have h2 := ih rest params'
            simpa [hp] using h1.trans h2
          · simpa [hp] using h1



theorem streaming_messages_grow (tools : List Tool) :
    ∀ (fuel : Nat),
      (∀ (params : Params) (sessions : List StreamSession),
        params.messages <+: (runStreaming params tools fuel sessions).2.2.1.messages) ∧
      (∀ (msgs : List Message) (params : Params) (sessions : List StreamSession),
        params.messages <+: (relayToolStreams params tools fuel sessions msgs).2.2.1.messages) := by
  intro fuel
  induction fuel with
  | zero =>
    constructor
    · intro params sessions
      simp [runStreaming]
    · intro msgs
      induction msgs with
      | nil => intro params sessions; simp [relayToolStreams]
      | cons m ms ih =>
        intro params sessions
        simp only [relayToolStreams]
        by_cases hm : m.role == Role.tool && !m.toolCalls.isEmpty
        · simp [hm]
        · simpa [hm] using ih params sessions
  | succ fuel' ih =>
    have relayGrow : ∀ (msgs : List Message) (params : Params) (sessions : List StreamSession),
        params.messages <+: (relayToolStreams params tools (fuel' + 1) sessions msgs).2.2.1.messages := by
      intro msgs
      induction msgs with
      | nil => intro params sessions; simp [relayToolStreams]
      | cons m ms ihm =>
        intro params sessions
        simp only [relayToolStreams]
        by_cases hm : m.role == Role.tool && !m.toolCalls.isEmpty
        · by_cases hf : fuel' + 1 ≤ 1
          · simp [hm, hf]
          · rcases hrun : runStreaming params tools (fuel' + 1 - 1) sessions with ⟨items, err, params', sessions'⟩
            have h1 : params.messages <+: params'.messages := by
              have := (ih.1) params sessions
              simp only [Nat.add_sub_cancel] at hrun
              rw [hrun] at this; exact this
            cases err with
            | some e => simpa [hm, hf, Nat.add_sub_cancel, hrun] using h1
            | none =>
              rcases hrel : relayToolStreams params' tools (fuel' + 1 - 1) sessions' ms with ⟨items2, err2, params'', sessions''⟩
              have h2 : params'.messages <+: params''.messages := by
                have := (ih.2) ms params' sessions'
                simp only [Nat.add_sub_cancel] at hrel
                rw [hrel] at this; exact this
              simpa [hm, hf, Nat.add_sub_cancel, hrun, hrel] using h1.trans h2
        · simpa [hm] using ihm params sessions
    constructor
    · intro params sessions
      simp only [runStreaming]
      rcases hc : choiceToResponse params tools (sessions.headD {}).accumulated with ⟨params1, r⟩
      have h1 : params.messages <+: params1.messages := by
        have := choiceToResponse_messages_grow tools (sessions.headD {}).accumulated params
        rw [hc] at this; exact this
      cases r with
      | error e => simpa [hc] using h1
      | ok lastResponse =>
        rcases hrel : relayToolStreams params1 tools (fuel' + 1) sessions.tail lastResponse.messages with ⟨items2, err2, params'', sessions''⟩
        have h2 : params1.messages <+: params''.messages := by
          have := relayGrow lastResponse.messages params1 sessions.tail
          rw [hrel] at this; exact this
        simpa [hc, hrel] using h1.trans h2
    · exact relayGrow



/-- C4: the running wire-format message list only grows: in the response
assembler, the non-streaming iteration controller and the stream pipeline, the
previous message list is a prefix of the new one after each step — entries are
never removed or reordered, only appended. -/
theorem request_messages_accumulate :
    (∀ (params : Params) (tools : List Tool) (choices : List Choice),
      params.messages <+: (choiceToResponse params tools choices).1.messages) ∧
    (∀ (params : Params) (tools : List Tool) (fuel : Nat) (script : List WireOutcome),
      params.messages <+: (NewAux params tools fuel script).2.2.messages) ∧
    (∀ (params : Params) (tools : List Tool) (fuel : Nat) (sessions : List StreamSession),
      params.messages <+: (runStreaming params tools fuel sessions).2.2.1.messages) :=
  ⟨fun params tools choices => choiceToResponse_messages_grow tools choices params,
   fun params tools fuel script => NewAux_messages_grow tools fuel script params,
   fun params tools fuel sessions => (streaming_messages_grow tools fuel).1 params sessions⟩

/-- C2: a wire completion result with zero choices does not surface
`ErrEmptyResponse`: with budget left, the controller returns a normal, empty
ModelResponse with no error and stops after that single cycle. -/
theorem empty_choices_return_ok (n : Nat) (params : Params) (tools : List Tool) :
    NewAux params tools (n + 1) [Except.ok []] =
      (Except.ok { messages := [] }, 1, params) := rfl

/-- C5 counterexample: with `MaxIterations = 0` and a request whose model name
is invalid, `Generate` fails with `ErrInvalidModel`, not `ErrTooManyIterations`
— translation runs before the iteration guard on the synchronous path. -/
theorem generate_zero_budget_invalid_model :
    Generate { model := "bogus" } { maxIterations := 0 } [] =
      (Except.error Err.invalidModel, 0) := rfl

/-- C5 amended: with `MaxIterations < 1`, the streaming entry point always
fails with `ErrTooManyIterations` before anything else; the synchronous entry
point translates first, failing with `ErrTooManyIterations` whenever
translation succeeds; in every case no wire-client call is performed (the
cycle count is 0 and the streaming result does not depend on the sessions). -/
theorem guard_rejects_before_wire_call :
    (∀ (req : ModelRequest) (opt : ModelOptions) (sessions : List StreamSession),
      opt.maxIterations < 1 →
      NewStream req opt sessions = Except.error Err.tooManyIterations) ∧
    (∀ (req : ModelRequest) (opt : ModelOptions) (script : List WireOutcome)
        (params : Params),
      opt.maxIterations < 1 →
      toChatCompletionParams req opt = Except.ok params →
      Generate req opt script = (Except.error Err.tooManyIterations, 0)) ∧
    (∀ (req : ModelRequest) (opt : ModelOptions) (script : List WireOutcome),
      opt.maxIterations < 1 → (Generate req opt script).2 = 0) := by
  refine ⟨?_, ?_, ?_⟩
  · intro req opt sessions h
    have : opt.maxIterations ≤ 0 := by omega
    simp [NewStream, this]
  · intro req opt script params h htr
    have h0 : opt.maxIterations.toNat = 0 := by omega
    simp [Generate, htr, New, h0, NewAux]
  · intro req opt script h
    have h0 : opt.maxIterations.toNat = 0 := by omega
    cases htr : toChatCompletionParams req opt with
    | error e => simp [Generate, htr]
    | ok params => simp [Generate, htr, New, h0, NewAux]

/-- C5 witness: concrete instances of all three parts of the guard theorem. -/
theorem guard_rejects_before_wire_call_witness :
    NewStream { model := QwenTurbo, messages := [{ role := Role.user }] }
        { maxIterations := 0 } [] = Except.error Err.tooManyIterations ∧
    Generate { model := QwenTurbo, messages := [{ role := Role.user }] }
        { maxIterations := 0 } [] = (Except.error Err.tooManyIterations, 0) ∧
    (Generate { model := "bogus" } { maxIterations := -2 } []).2 = 0 :=
  ⟨guard_rejects_before_wire_call.1 _ _ _ (by decide),
   guard_rejects_before_wire_call.2.1 _ _ _ _ (by decide) (by rfl),
   guard_rejects_before_wire_call.2.2 _ _ _ (by decide)⟩

/-- C6: a request whose model identifier is not one of the six recognized Qwen
model names fails translation with `ErrInvalidModel`, and `Generate` performs
no wire-client call for it. -/
theorem invalid_model_rejected (req : ModelRequest) (opt : ModelOptions)
    (script : List WireOutcome)
    (h : req.model ∉ [QwenTurbo, QwenPlus, QwenMax, QwenLong, QwenVL, QwenAudio]) :
    toChatCompletionParams req opt = Except.error Err.invalidModel ∧
    Generate req opt script = (Except.error Err.invalidModel, 0) := by
  have hv : isValidModel req.model = false := by
    simp only [isValidModel]
    simp only [List.mem_cons, List.not_mem_nil, or_false, not_or] at h
    simp [h.1, h.2.1, h.2.2.1, h.2.2.2.1, h.2.2.2.2.1, h.2.2.2.2.2]
  constructor
  · simp [toChatCompletionParams, hv]
  · simp [Generate, toChatCompletionParams, hv]

/-- C6 witness: the unsupported name "gpt-4" is rejected with
`ErrInvalidModel` and zero wire-client calls. -/
theorem invalid_model_rejected_witness :
    toChatCompletionParams { model := "gpt-4" } {} = Except.error Err.invalidModel ∧
    Generate { model := "gpt-4" } {} [] = (Except.error Err.invalidModel, 0) :=
  invalid_model_rejected { model := "gpt-4" } {} [] (by decide)



/-- A user message holding exactly one part; used to state per-part
translation facts. -/
def userMessageOf (p : Part) : Message :=
  { role := Role.user, parts := [p] }

/-- A wire choice whose message carries only textual content; used to state
the round-trip facts. -/
def textChoice (s : String) : Choice :=
  { message := { content := s } }

/-- C7 counterexample shape, audio data part with MIME type audio/mpeg. -/
def audioClip : Part :=
  Part.data "clip" [0, 1, 2] { raw := "audio/mpeg" }

set_option maxRecDepth 8192 in
/-- C7 counterexample: the audio Data part with bytes `[0, 1, 2]` and MIME
type "audio/mpeg" is translated to an inline audio part whose data field is
`"data:;base64,AAEC"` — it does not begin with `"data:audio/mpeg;base64,"`,
so the emitted data URL omits the part's MIME type. -/
theorem audio_data_url_lacks_mime :
    toContentParts (userMessageOf audioClip) =
      [ContentPart.inputAudio "data:;base64,AAEC" "mpeg"] ∧
    ("data:;base64,AAEC".startsWith ("data:" ++ "audio/mpeg" ++ ";base64,")) = false := by
  constructor
  · rfl
  · decide

/-- C7 amended: a user-message Data part whose MIME type classifies as audio
becomes an inline audio wire part whose data field is `"data:;base64,"`
followed by the base64 encoding of the bytes — the MIME type itself is omitted
from the data URL — with the format derived from the MIME type. -/
theorem audio_data_part_encoding (msg : Message) (name : String) (bytes : List Nat)
    (mime : Mime) (hm : mime.type = "audio")
    (hp : msg.parts = [Part.data name bytes mime]) :
    toContentParts msg =
      [ContentPart.inputAudio ("data:;base64," ++ base64Encode bytes) mime.format] := by
  have himg : (mime.type == "image") = false := by simp [hm]
  have haud : (mime.type == "audio") = true := by simp [hm]
  simp [toContentParts, hp, partToContentParts, himg, haud]

/-- C7 witness: the amended audio encoding at a concrete Data part. -/
theorem audio_data_part_encoding_witness :
    toContentParts (userMessageOf audioClip) =
      [ContentPart.inputAudio ("data:;base64," ++ base64Encode [0, 1, 2])
        (Mime.format { raw := "audio/mpeg" })] :=
  audio_data_part_encoding (userMessageOf audioClip) "clip" [0, 1, 2]
    { raw := "audio/mpeg" } (by decide) rfl

/-- C9 counterexample: for the empty string the round trip loses the part — a
wire choice whose message content is `""` assembles to a Message with no parts
at all, so its first part is not a Text part holding `""`. -/
theorem empty_text_round_trip_drops_part :
    toContentParts (userMessageOf (Part.text "")) = [ContentPart.text ""] ∧
    (choiceToResponse {} [] [textChoice ""]).2 =
      Except.ok { messages := [{ role := Role.assistant }] } := ⟨rfl, rfl⟩

/-- C9 amended: for every non-empty string, a Text part translates to the
matching wire text part, and a wire choice carrying that string as its message
content assembles back (assistant role, completed status) to a Message whose
first and only part is the original Text part, leaving the running request
untouched. -/
theorem text_round_trip (s : String) (params : Params) (tools : List Tool)
    (h : s ≠ "") :
    toContentParts (userMessageOf (Part.text s)) = [ContentPart.text s] ∧
    choiceToResponse params tools [textChoice s] =
      (params, Except.ok { messages := [{ role := Role.assistant, parts := [Part.text s] }] }) := by
  constructor
  · rfl
  · simp [choiceToResponse, assembleChoice, audioParts, processToolCalls, textChoice, h]

/-- C9 witness: the round trip at the concrete string "hello". -/
theorem text_round_trip_witness :
    toContentParts (userMessageOf (Part.text "hello")) = [ContentPart.text "hello"] ∧
    choiceToResponse {} [] [textChoice "hello"] =
      ({}, Except.ok { messages := [{ role := Role.assistant, parts := [Part.text "hello"] }] }) :=
  text_round_trip "hello" {} [] (by decide)

/-- C8: tool dispatch.  When some definition matches the requested name
exactly, `toolCall` returns the handler pair of the first such definition
unchanged (result string, and the handler's error if the handler failed);
when no definition matches, it returns the empty string with
`ErrToolNotFound`. -/
theorem tool_dispatch :
    (∀ (tools : List Tool) (name arguments : String) (t : Tool),
      tools.find? (fun tool => tool.name == name) = some t →
      toolCall tools name arguments = t.handle arguments) ∧
    (∀ (tools : List Tool) (name arguments : String),
      (∀ t ∈ tools, t.name ≠ name) →
      toolCall tools name arguments = ("", some Err.toolNotFound)) := by
  constructor
  · intro tools name arguments t hfind
    induction tools with
    | nil => simp [List.find?] at hfind
    | cons tool rest ih =>
      by_cases h : (tool.name == name) = true
      · simp only [List.find?, h] at hfind
        cases hfind
        simp [toolCall, h]
      · have h' : (tool.name == name) = false := by simpa using h
        simp only [List.find?, h'] at hfind
        simp [toolCall, h', ih hfind]
  · intro tools name arguments habsent
    induction tools with
    | nil => simp [toolCall]
    | cons tool rest ih =>
      have h : (tool.name == name) = false := by
        simp only [beq_eq_false_iff_ne]
        exact habsent tool (List.mem_cons_self tool rest)
      simp only [toolCall, h, Bool.false_eq_true, if_false]
      exact ih fun t ht => habsent t (List.mem_cons_of_mem tool ht)

/-- Sample tool returning its argument; used by the dispatch witness. -/
def sampleToolA : Tool :=
  { name := "a", handle := fun args => ("got:" ++ args, none) }

/-- Sample tool with a fixed result; used by the dispatch witness. -/
def sampleToolB : Tool :=
  { name := "b", handle := fun _ => ("other", none) }

/-- C8 witness: dispatch between two concrete tools — a present name returns
that tool's handler result, an absent name fails with `ErrToolNotFound`. -/
theorem tool_dispatch_witness :
    toolCall [sampleToolA, sampleToolB] "b" "x" = ("other", none) ∧
    toolCall [sampleToolA, sampleToolB] "c" "x" = ("", some Err.toolNotFound) :=
  ⟨tool_dispatch.1 [sampleToolA, sampleToolB] "b" "x" sampleToolB rfl,
   tool_dispatch.2 [sampleToolA, sampleToolB] "c" "x" (by
    intro t ht
    simp only [sampleToolA, sampleToolB, List.mem_cons, List.not_mem_nil, or_false] at ht
    rcases ht with h | h <;> subst h <;> decide)⟩



/-- C10: when a choice carries two tool calls and the second invocation fails,
the assembler returns the error and no response, but the running wire request
keeps the mutations already made: the assistant's tool-call announcement and
the tool-result entry of the first, successful call remain appended — nothing
is rolled back. -/
theorem no_rollback_on_later_tool_failure (params : Params) (tools : List Tool)
    (content refusal fin : String) (c1 c2 : WireToolCall) (r1 : String) (e : Err)
    (h1 : toolCall tools c1.function.name c1.function.arguments = (r1, none))
    (h2 : (toolCall tools c2.function.name c2.function.arguments).2 = some e) :
    choiceToResponse params tools
      [{ message := { content := content, refusal := refusal, toolCalls := [c1, c2] }, finishReason := fin }] =
      ({ params with messages := params.messages ++
          [WireMessage.assistantOfChoice { content := content, refusal := refusal, toolCalls := [c1, c2] },
           WireMessage.toolResult r1 c1.id] },
       Except.error e) := by
  rcases hx : toolCall tools c2.function.name c2.function.arguments with ⟨x, err2⟩
  rw [hx] at h2
  simp only at h2
  subst h2
  simp [choiceToResponse, assembleChoice, audioParts, processToolCalls, h1, hx]

/-- Failing tool used by witnesses: its handler always fails. -/
def failTool : Tool :=
  { name := "f", handle := fun _ => ("", some (Err.handlerFailure "boom")) }

/-- A wire tool call addressed to `failTool`. -/
def failCall : WireToolCall :=
  { id := "fid", function := { name := "f", arguments := "" } }

/-- A wire tool call addressed to `sampleToolA`. -/
def okCall : WireToolCall :=
  { id := "aid", function := { name := "a", arguments := "x" } }

/-- C10 witness: with the first call succeeding and the second failing, the
request keeps the announcement and the first tool result while the assembler
returns the handler's error. -/
theorem no_rollback_on_later_tool_failure_witness :
    choiceToResponse {} [sampleToolA, failTool]
      [{ message := { content := "c", refusal := "", toolCalls := [okCall, failCall] }, finishReason := "" }] =
      ({ messages :=
          [WireMessage.assistantOfChoice { content := "c", refusal := "", toolCalls := [okCall, failCall] },
           WireMessage.toolResult "got:x" "aid"] },
       Except.error (Err.handlerFailure "boom")) := by
  have := no_rollback_on_later_tool_failure {} [sampleToolA, failTool] "c" "" ""
    okCall failCall "got:x" (Err.handlerFailure "boom") (by rfl) (by rfl)
  simpa using this



theorem processToolCalls_result_params_indep (tools : List Tool) :
    ∀ (calls : List WireToolCall) (msg : Message) (p q : Params),
      (processToolCalls p tools msg calls).2 = (processToolCalls q tools msg calls).2 := by
  intro calls
  induction calls with
  | nil => intro msg p q; simp [processToolCalls]
  | cons call rest ih =>
    intro msg p q
    simp only [processToolCalls]
    rcases h : toolCall tools call.function.name call.function.arguments with ⟨result, err⟩
    cases err with
    | some e => simp
    | none => simpa using ih _ _ _

theorem assembleChoice_result_params_indep (tools : List Tool) (choice : Choice)
    (p q : Params) :
    (assembleChoice p tools choice).2 = (assembleChoice q tools choice).2 := by
  simp only [assembleChoice]
  cases audioParts choice.message.audioData with
  | error e => simp
  | ok aparts =>
    by_cases h : choice.message.toolCalls.isEmpty <;>
      simpa [h] using processToolCalls_result_params_indep tools _ _ _ _

theorem choiceToResponse_result_params_indep (tools : List Tool) :
    ∀ (choices : List Choice) (p q : Params),
      (choiceToResponse p tools choices).2 = (choiceToResponse q tools choices).2 := by
  intro choices
  induction choices with
  | nil => intro p q; simp [choiceToResponse]
  | cons choice rest ih =>
    intro p q
    simp only [choiceToResponse]
    rcases h1 : assembleChoice p tools choice with ⟨p', r1⟩
    rcases h2 : assembleChoice q tools choice with ⟨q', r2⟩
    have hr : r1 = r2 := by
      have := assembleChoice_result_params_indep tools choice p q
      rw [h1, h2] at this; exact this
    subst hr
    cases r1 with
    | error e => simp
    | ok msg =>
      rcases h3 : choiceToResponse p' tools rest with ⟨p'', s1⟩
      rcases h4 : choiceToResponse q' tools rest with ⟨q'', s2⟩
      have hs : s1 = s2 := by
        have := ih p' q'
        rw [h3, h4] at this; exact this
      subst hs
      cases s1 with
      | error e => simp [h3, h4]
      | ok res => simp [h3, h4]

/-- Response assembled from a list of wire choices, irrespective of the
running request it is threaded through (`choiceToResponse` returns the same
response and error for every starting request). -/
def assembledResponse (tools : List Tool) (choices : List Choice) :
    Except Err ModelResponse :=
  (choiceToResponse {} tools choices).2

theorem NewAux_step_tool (params : Params) (tools : List Tool) (fuel : Nat)
    (cs : List Choice) (rest : List WireOutcome) (r : ModelResponse)
    (h : (choiceToResponse params tools cs).2 = Except.ok r) (hp : pendingToolWork r = true) :
    NewAux params tools (fuel + 1) (Except.ok cs :: rest) =
      ((NewAux (choiceToResponse params tools cs).1 tools fuel rest).1,
       (NewAux (choiceToResponse params tools cs).1 tools fuel rest).2.1 + 1,
       (NewAux (choiceToResponse params tools cs).1 tools fuel rest).2.2) := by
  obtain ⟨p1, hps⟩ : ∃ p1, choiceToResponse params tools cs = (p1, Except.ok r) :=
    ⟨(choiceToResponse params tools cs).1, by rw [← h]⟩
  rw [NewAux.eq_def]
  simp [hps, hp]

/-- C1 amended: when the model replies with tool calls on both cycles and
`MaxIterations = 2`, the non-streaming controller performs exactly 2
request/response cycles and terminates — but the final result is the
`ErrTooManyIterations` failure produced by the entry guard of the third
recursive step, not the last assembled ModelResponse. -/
theorem budget_exhaustion_two_cycles (tools : List Tool) (cs1 cs2 : List Choice)
    (r1 r2 : ModelResponse)
    (h1 : assembledResponse tools cs1 = Except.ok r1) (hp1 : pendingToolWork r1 = true)
    (h2 : assembledResponse tools cs2 = Except.ok r2) (hp2 : pendingToolWork r2 = true)
    (params : Params) :
    (NewAux params tools 2 [Except.ok cs1, Except.ok cs2]).1 =
        Except.error Err.tooManyIterations ∧
    (NewAux params tools 2 [Except.ok cs1, Except.ok cs2]).2.1 = 2 := by
  have e1 : (choiceToResponse params tools cs1).2 = Except.ok r1 := by
    rw [choiceToResponse_result_params_indep tools cs1 params {}]; exact h1
  have e2 : (choiceToResponse (choiceToResponse params tools cs1).1 tools cs2).2 =
      Except.ok r2 := by
    rw [choiceToResponse_result_params_indep tools cs2 _ {}]; exact h2
  have s1 := NewAux_step_tool params tools 1 cs1 [Except.ok cs2] r1 e1 hp1
  have s2 := NewAux_step_tool (choiceToResponse params tools cs1).1 tools 0 cs2 [] r2 e2 hp2
  constructor
  · rw [show (2 : Nat) = 1 + 1 from rfl, s1, s2]
    simp [NewAux]
  · rw [show (2 : Nat) = 1 + 1 from rfl, s1, s2]
    simp [NewAux]

/-- Tool used by the iteration-budget scenarios: it always succeeds, and the
scripted model reply always asks for it again. -/
def budgetTool : Tool :=
  { name := "t", handle := fun _ => ("r", none) }

/-- A wire choice that requests one call of `budgetTool`. -/
def budgetChoice : Choice :=
  { message := { content := "c", toolCalls := [{ id := "id1", function := { name := "t", arguments := "a" } }] }, finishReason := "stop" }

/-- The response assembled from `budgetChoice` with `budgetTool` available:
one tool-role message whose ToolCall carries the handler result. -/
def budgetResponse : ModelResponse :=
  { messages := [{ role := Role.tool
                   status := Status.completed
                   parts := [Part.text "c"]
                   metadata := [("finish_reason", "stop")]
                   toolCalls := [{ id := "id1", name := "t", arguments := "a", result := "r" }] }] }

/-- C1 counterexample: with `MaxIterations = 2` and a scripted model that
requests a tool call on every cycle, the controller performs exactly 2 wire
cycles and then returns the `ErrTooManyIterations` failure — not the last
assembled ModelResponse, refuting the claim that the last response is
returned. -/
theorem budget_exhaustion_returns_error :
    (NewAux {} [budgetTool] 2 [Except.ok [budgetChoice], Except.ok [budgetChoice]]).1 =
        Except.error Err.tooManyIterations ∧
    (NewAux {} [budgetTool] 2 [Except.ok [budgetChoice], Except.ok [budgetChoice]]).2.1 = 2 := by
  constructor
  · rfl
  · rfl

/-- C1 witness: the amended budget-exhaustion theorem applied to the concrete
always-recursing script. -/
theorem budget_exhaustion_two_cycles_witness :
    assembledResponse [budgetTool] [budgetChoice] = Except.ok budgetResponse ∧
    pendingToolWork budgetResponse = true ∧
    ((NewAux {} [budgetTool] 2 [Except.ok [budgetChoice], Except.ok [budgetChoice]]).1 =
        Except.error Err.tooManyIterations ∧
     (NewAux {} [budgetTool] 2 [Except.ok [budgetChoice], Except.ok [budgetChoice]]).2.1 = 2) :=
  ⟨by decide, by decide,
   budget_exhaustion_two_cycles [budgetTool] [budgetChoice] [budgetChoice]
     budgetResponse budgetResponse (by decide) (by decide) (by decide) (by decide) {}⟩



/-- A streamed chunk carrying the partial text "hi". -/
def hiChunk : Chunk :=
  { choices := [{ delta := { content := "hi" } }] }

/-- An accumulated wire choice with plain text and no tool calls. -/
def doneChoice : Choice :=
  { message := { content := "done" }, finishReason := "stop" }

/-- A stream session whose chunk iteration stops because of a wire transport
error (`stream.Next()` returned false with `stream.Err()` non-nil). -/
def transportFailSession : StreamSession :=
  { chunks := [hiChunk]
    transportFailed := true
    accumulated := [doneChoice] }

/-- The partial response forwarded for `hiChunk`. -/
def hiPartial : ModelResponse :=
  { messages := [{ role := Role.assistant
                   status := Status.incomplete
                   parts := [Part.text "hi"] }] }

/-- The consolidated response assembled from `doneChoice`. -/
def doneFinal : ModelResponse :=
  { messages := [{ role := Role.assistant
                   status := Status.completed
                   parts := [Part.text "done"]
                   metadata := [("finish_reason", "stop")] }] }

/-- C3 counterexample: a transport error on the wire stream does not terminate
the output sequence with that error — the chunk loop never consults
`stream.Err()`, so the pipeline emits the consolidated final message after the
failure point and completes with no terminal error at all. -/
theorem transport_error_swallowed :
    runStreaming {} [] 3 [transportFailSession] =
      ([hiPartial, doneFinal], none, {}, []) := by
  simp [runStreaming, relayToolStreams, transportFailSession, hiChunk, doneChoice,
    choiceToResponse, assembleChoice, audioParts, processToolCalls,
    chunkChoiceToResponse, chunkChoiceToMessage, hiPartial, doneFinal]

/-- C3 amended: failures the background task does check terminate the output
sequence with that error and nothing further is emitted.  First part: when
assembling the accumulated completion fails (tool-invocation or audio-decode
failure), the output is exactly the per-chunk partials already forwarded,
terminated by that error.  Second part: when a nested tool-triggered stream
terminates with an error, the parent relays exactly the nested items and that
error, abandoning the remaining messages.  (A wire transport error, by
contrast, is swallowed: see the counterexample.) -/
theorem stream_error_terminates_output :
    (∀ (params : Params) (tools : List Tool) (b : Nat) (s : StreamSession)
        (rest : List StreamSession) (params1 : Params) (e : Err),
      choiceToResponse params tools s.accumulated = (params1, Except.error e) →
      runStreaming params tools (b + 1) (s :: rest) =
        (s.chunks.map (fun c => chunkChoiceToResponse tools c.choices), some e, params1, rest)) ∧
    (∀ (params : Params) (tools : List Tool) (fuel : Nat) (sessions : List StreamSession)
        (m : Message) (ms : List Message) (items : List ModelResponse)
        (e : Err) (params' : Params) (sessions' : List StreamSession),
      m.role = Role.tool → m.toolCalls ≠ [] → 2 ≤ fuel →
      runStreaming params tools (fuel - 1) sessions = (items, some e, params', sessions') →
      relayToolStreams params tools fuel sessions (m :: ms) = (items, some e, params', sessions')) := by
  constructor
  · intro params tools b s rest params1 e h
    rw [runStreaming]
    simp [h]
  · intro params tools fuel sessions m ms items e params' sessions' hrole hcalls hfuel hrun
    have hcond : (m.role == Role.tool && !m.toolCalls.isEmpty) = true := by
      simp [hrole, hcalls]
      rfl
    have hf : ¬ fuel ≤ 1 := by omega
    rw [relayToolStreams]
    simp [hcond, hf, hrun]

/-- A wire choice that requests one call of the always-failing `failTool`. -/
def failChoiceNoAudio : Choice :=
  { message := { toolCalls := [failCall] } }

/-- A stream session whose accumulated completion requests the failing tool. -/
def failSession : StreamSession :=
  { chunks := []
    transportFailed := false
    accumulated := [failChoiceNoAudio] }

/-- The running request after the assembler has appended the assistant's
tool-call announcement for `failChoiceNoAudio` and then hit the handler
failure. -/
def failParams1 : Params :=
  { messages := [WireMessage.assistantOfChoice { toolCalls := [failCall] }] }

/-- A consolidated tool-role message with an outstanding tool call, marking a
nested stream start in the relay loop. -/
def toolMsgMarker : Message :=
  { role := Role.tool, toolCalls := [{ id := "fid", name := "f" }] }

/-- C3 witness: both parts of the termination theorem at concrete inputs — a
failing tool handler terminates the stream output with the handler's error and
no items, and a nested stream failing that way makes the parent relay
terminate with the same error, abandoning the rest. -/
theorem stream_error_terminates_output_witness :
    runStreaming {} [failTool] 1 [failSession] =
      ([], some (Err.handlerFailure "boom"), failParams1, []) ∧
    relayToolStreams {} [failTool] 2 [failSession] [toolMsgMarker] =
      ([], some (Err.handlerFailure "boom"), failParams1, []) := by
  have h1 := stream_error_terminates_output.1 {} [failTool] 0 failSession []
    failParams1 (Err.handlerFailure "boom") (by decide)
  have h1' : runStreaming {} [failTool] 1 [failSession] =
      ([], some (Err.handlerFailure "boom"), failParams1, []) := by
    simpa [failSession] using h1
  refine ⟨h1', ?_⟩
  exact stream_error_terminates_output.2 {} [failTool] 2 [failSession] toolMsgMarker []
    [] (Err.handlerFailure "boom") failParams1 [] (by decide) (by decide) (by omega) h1'

end Tongyi
